import Mathlib

/-!
Verification of the staff-scheduling candidate engine and model builder.

A shallow embedding of the repository sources:
  * `src/io_utils.py`            — `load_data`, `load_unavailability`,
                                   `derive_shift_availability_from_grid`
  * `src/flexible_candidates.py` — `build_flexible_candidates`
  * `src/model.py`               — `build_model` (objective and constraints)
  * `src/solve.py`               — `sanity_check` and the `main` pipeline

Python strings become `String`; Python ints become `Int`; Python floats
(wages, costs, penalties) become `Rat`; CSV files become typed row lists
(parsing is out of scope per the spec's DataSource collaborator).
Dicts built by iterated assignment become last-occurrence lookups
(`dlast`); `range(s, e)` becomes `rangeInts`.
-/

namespace Sched

/-- Python `range(s, s + len)` over integers, as a list.
`range` is empty when `len ≤ 0`, matching Python. -/
def rangeInts (s : Int) (len : Int) : List Int :=
  (List.range len.toNat).map (fun o : Nat => s + (o : Int))

/-- Last-wins dictionary lookup: a Python dict built by iterating `rows`
and assigning `d[key r] = val r` holds, for each key, the value of the
LAST row with that key.  `dflt` is returned for absent keys (mirrors
`dict.get(key, dflt)`; the sources only read present keys or use a
default-0 `get`/`Param`). -/
def dlast {α κ ν : Type} [DecidableEq κ] (rows : List α) (key : α → κ) (val : α → ν)
    (dflt : ν) (k : κ) : ν :=
  match (rows.filter (fun r => key r = k)).getLast? with
  | some r => val r
  | none => dflt

/-- Insert `a` into a list before the first element it compares ≤ to. -/
def insertSorted {α : Type} (le : α → α → Bool) (a : α) : List α → List α
  | [] => [a]
  | b :: l => if le a b then a :: b :: l else b :: insertSorted le a l

/-- Python `sorted(...)`: a sort of the list (insertion sort; only the
membership and ordering of the result matter to the embedding). -/
def sortedList {α : Type} (le : α → α → Bool) (l : List α) : List α :=
  l.foldr (insertSorted le) []

/-! ### CSV row types (typed DataSource streams) -/

/-- A row of `employees.csv`: employee_id; hourly_cost; type. -/
structure EmployeeRow where
  employee_id : String
  hourly_cost : Rat
  type : String
deriving DecidableEq, Repr

/-- A row of `skills.csv`: employee_id; job. -/
structure SkillRow where
  employee_id : String
  job : String
deriving DecidableEq, Repr

/-- A row of `shifts.csv`: shift_id; day; job; start_t; length; unpaid_breaks_Bj. -/
structure ShiftRow where
  shift_id : String
  day : Int
  job : String
  start_t : Int
  length : Int
  unpaid_breaks : Int
deriving DecidableEq, Repr

/-- A row of `unavailability.csv`: employee_id; day; start_t; end_t (half-open). -/
structure UnavailRow where
  employee_id : String
  day : Int
  start_t : Int
  end_t : Int
deriving DecidableEq, Repr

/-- A row of `demand.csv`: day; t; job; preferred; min. -/
structure DemandRow where
  day : Int
  t : Int
  job : String
  preferred : Int
  minReq : Int
deriving DecidableEq, Repr

/-- The dataset directory: the five CSV files as typed row lists. -/
structure Input where
  employees : List EmployeeRow
  skills : List SkillRow
  shifts : List ShiftRow
  unavail : List UnavailRow
  demand : List DemandRow
deriving DecidableEq, Repr

/-! ### `io_utils.load_data` and helpers -/

/-- The `data` dict produced by `load_data`.  Dict-valued entries keyed by a
full domain become functions; sparse dicts read through `.get(key, 0)` (or a
Pyomo `Param` with `default=0`) become total functions returning the default
outside their key set. -/
structure Data where
  employees : List String
  wage : String → Rat
  emp_type : String → String
  /-- Source: `data["skills"]`: sparse `{(i,k): 1}` read via `.get(.., 0)`. -/
  skills : String × String → Rat
  jobs : List String
  shifts : List String
  jobs_of : String → String
  days : List Int
  start_j : String → Int
  Lj : String → Int
  unpaid : String → Int
  /-- Source: `data["covers"]`: sparse `{(j,t): 1}`, default 0 (model `Param`). -/
  covers : String → Int → Rat
  intervals : List Int
  /-- Source: `data["pref_kdt"]` composed with the model `Param` default 0:
  dict keys range over jobs × days × intervals, values from the demand
  defaultdict; any other key reads as 0. -/
  prefReq : String → Int → Int → Rat
  /-- Source: `data["min_kdt"]` composed with the model `Param` default 0. -/
  minReq : String → Int → Int → Rat
  blocked : List (String × Int × Int)
  /-- Source: `data["availability"]`: sparse `{(i,j,d): 1}` read via `.get(.., 0)`. -/
  availability : String → String → Int → Rat
  FT : List String
  PT : List String
  pen_min : Rat
  pen_pref : Rat
  X : List (String × String × Int)
  /-- The key set of the sparse `data["skills"]` dict: the
  (employee_id, job) pairs of the `skills.csv` rows (the model builder's
  `Param(m.I, m.K, ...)` validates these keys at construction). -/
  skills_keys : List (String × String)
  /-- The key set of the sparse `data["covers"]` dict (`sanity_check`
  tests this dict for emptiness). -/
  covers_keys : List (String × Int)
  /-- The key set of the sparse `data["availability"]` dict
  (`sanity_check` tests this dict for emptiness). -/
  availability_keys : List (String × String × Int)

/-- Source: `io_utils.load_unavailability`: expand each row's half-open
`[start_t, end_t)` into `(i, d, t)` triples, skipping rows whose employee
or day is outside the loaded domains. -/
def load_unavailability (rows : List UnavailRow) (employees : List String)
    (days : List Int) : List (String × Int × Int) :=
  rows.flatMap fun r =>
    if r.employee_id ∈ employees ∧ r.day ∈ days then
      (rangeInts r.start_t (r.end_t - r.start_t)).map (fun t => (r.employee_id, r.day, t))
    else []

/-- The interval slots covered by shift id `j` (the keys `t` with
`covers[j][t] = 1`, possibly with repeats; only membership is used). -/
def coverTsOf (shiftRows : List ShiftRow) (j : String) : List Int :=
  shiftRows.flatMap (fun r => if r.shift_id = j then rangeInts r.start_t r.length else [])

/-- Source: `io_utils.derive_shift_availability_from_grid` as the characteristic
function of the dict it builds: `(i,j,d)` maps to 1 iff the loops reach it
(`i`, `j`, `d` in the loaded lists) and either the shift has no coverage
slots (the "trivially available" branch) or no covered slot is blocked —
both branches collapse to a bounded ∀ over the coverage slots. -/
def derive_shift_availability_from_grid (shiftRows : List ShiftRow)
    (employees : List String) (days : List Int)
    (blocked : List (String × Int × Int)) (i j : String) (d : Int) : Rat :=
  if i ∈ employees ∧ j ∈ shiftRows.map (·.shift_id) ∧ d ∈ days ∧
     (∀ t ∈ coverTsOf shiftRows j, (i, d, t) ∉ blocked) then 1 else 0

/-- Value of the demand `defaultdict` at `(k, d, t)`: the last matching
demand row's field, else 0. -/
def demandVal (rows : List DemandRow) (field : DemandRow → Int)
    (k : String) (d t : Int) : Rat :=
  ((dlast (rows.filter fun r => r.job = k ∧ r.day = d ∧ r.t = t)
      (fun _ => ()) field 0 () : Int) : Rat)

/-! The body of `io_utils.load_data` builds the `data` dict entry by
entry; each entry is a named definition here (one per dict key, in the
order the source assigns them) and `load_core` assembles the record. -/

/-- Source: `data["employees"]`. -/
def employeesOf (inp : Input) : List String := inp.employees.map (·.employee_id)

/-- The `emp_type` dict. -/
def emp_typeOf (inp : Input) : String → String :=
  dlast inp.employees (·.employee_id) (·.type) ""

/-- Source: `data["jobs"] = sorted(jobs)` where `jobs` collects the job column of
`skills.csv`. -/
def jobsOf (inp : Input) : List String :=
  sortedList (fun a b => decide (a ≤ b)) (inp.skills.map (·.job)).dedup

/-- Source: `data["skills"]`: sparse `{(i,k): 1}` read via `.get(.., 0)`. -/
def skillsOf (inp : Input) : String × String → Rat := fun ik =>
  if inp.skills.any (fun r => r.employee_id = ik.1 ∧ r.job = ik.2) then 1 else 0

/-- Source: `data["days"] = sorted(days)` where `days` collects the day column of
`shifts.csv`. -/
def daysOf (inp : Input) : List Int :=
  sortedList (fun a b => decide (a ≤ b)) (inp.shifts.map (·.day)).dedup

/-- Source: `data["jobs_of"]`. -/
def jobs_ofOf (inp : Input) : String → String :=
  dlast inp.shifts (·.shift_id) (·.job) ""

/-- Source: `data["covers"]` read with default 0: 1 iff some row of `shifts.csv`
with this shift id puts `t` in `range(start, start + length)`. -/
def coversOf (inp : Input) : String → Int → Rat := fun j t =>
  if inp.shifts.any (fun r => r.shift_id = j ∧ t ∈ rangeInts r.start_t r.length)
  then 1 else 0

/-- Source: `data["intervals"]`: sorted union of the intervals any shift covers and
the `t` column of `demand.csv`. -/
def intervalsOf (inp : Input) : List Int :=
  sortedList (fun a b => decide (a ≤ b))
    ((inp.shifts.flatMap fun r => rangeInts r.start_t r.length)
      ++ inp.demand.map (·.t)).dedup

/-- Source: `data["pref_kdt"]` (dict over jobs × days × intervals) read through the
model `Param` default 0. -/
def prefReqOf (inp : Input) : String → Int → Int → Rat := fun k d t =>
  if k ∈ jobsOf inp ∧ d ∈ daysOf inp ∧ t ∈ intervalsOf inp
  then demandVal inp.demand (·.preferred) k d t else 0

/-- Source: `data["min_kdt"]` read through the model `Param` default 0. -/
def minReqOf (inp : Input) : String → Int → Int → Rat := fun k d t =>
  if k ∈ jobsOf inp ∧ d ∈ daysOf inp ∧ t ∈ intervalsOf inp
  then demandVal inp.demand (·.minReq) k d t else 0

/-- Source: `data["blocked"]`. -/
def blockedOf (inp : Input) : List (String × Int × Int) :=
  load_unavailability inp.unavail (employeesOf inp) (daysOf inp)

/-- Source: `data["availability"]` read with default 0. -/
def availabilityOf (inp : Input) : String → String → Int → Rat :=
  derive_shift_availability_from_grid inp.shifts (employeesOf inp) (daysOf inp)
    (blockedOf inp)

/-- The sparse candidate set `data["X"]`: the triple loop over employees,
shifts and days, skipping employees without the shift's job skill
(`continue`) and days where the derived availability is not 1. -/
def XOf (inp : Input) : List (String × String × Int) :=
  (employeesOf inp).flatMap fun i =>
    (inp.shifts.map (·.shift_id)).flatMap fun j =>
      if skillsOf inp (i, jobs_ofOf inp j) = 0 then []
      else (daysOf inp).filterMap fun d =>
        if availabilityOf inp i j d = 1 then some (i, j, d) else none

/-- The pure body of `io_utils.load_data` (everything except the two
`max(...)` calls, which raise on empty input and are modelled in
`load_data` below). -/
def load_core (inp : Input) : Data :=
  { employees := employeesOf inp
    wage := dlast inp.employees (·.employee_id) (·.hourly_cost) 0
    emp_type := emp_typeOf inp
    skills := skillsOf inp
    jobs := jobsOf inp
    shifts := inp.shifts.map (·.shift_id)
    jobs_of := jobs_ofOf inp
    days := daysOf inp
    start_j := dlast inp.shifts (·.shift_id) (·.start_t) 0
    Lj := dlast inp.shifts (·.shift_id) (·.length) 0
    unpaid := dlast inp.shifts (·.shift_id) (·.unpaid_breaks) 0
    covers := coversOf inp
    intervals := intervalsOf inp
    prefReq := prefReqOf inp
    minReq := minReqOf inp
    blocked := blockedOf inp
    availability := availabilityOf inp
    FT := (employeesOf inp).dedup.filter (fun i => emp_typeOf inp i = "FT")
    PT := (employeesOf inp).dedup.filter (fun i => emp_typeOf inp i = "PT20")
       ++ (employeesOf inp).dedup.filter (fun i => emp_typeOf inp i = "PT25")
    pen_min := 10000000
    pen_pref := 10
    X := XOf inp
    skills_keys := inp.skills.map (fun r => (r.employee_id, r.job))
    covers_keys := inp.shifts.flatMap fun r =>
      (rangeInts r.start_t r.length).map (fun t => (r.shift_id, t))
    availability_keys := (employeesOf inp).flatMap fun i =>
      (inp.shifts.map (·.shift_id)).flatMap fun j =>
        (daysOf inp).filterMap fun d =>
          if availabilityOf inp i j d = 1 then some (i, j, d) else none }

/-- Source: `io_utils.load_data`.  The loader has no integrity validation; its only
failure points (with a typed `Input`, i.e. parsing out of scope) are
`max(data["wage"].values())` and `max(... for j in data["shifts"])`, which
raise `ValueError` on an empty employees or shifts file. -/
def load_data (inp : Input) : Except String Data :=
  if inp.employees = [] then .error "max() arg is an empty sequence"
  else if inp.shifts = [] then .error "max() arg is an empty sequence"
  else .ok (load_core inp)

/-! ### `flexible_candidates.build_flexible_candidates` -/

/-- One emitted flexible pattern.  The Python code keys the parallel dicts
`P_i`, `P_k`, `P_d`, `P_s`, `P_L` by a fresh opaque id `"P<n>"`; patterns
are modelled as the records those dicts describe, in emission order (the
list position plays the role of the id). -/
structure FlexPattern where
  i : String
  k : String
  d : Int
  s : Int
  L : Int
deriving DecidableEq, Repr

/-- Source: `covP`: the pattern covers exactly the slots `range(s, s + L)`. -/
def covP (p : FlexPattern) (t : Int) : Rat :=
  if t ∈ rangeInts p.s p.L then 1 else 0

/-- Source: `paidP[p] = L` (flexible patterns carry no unpaid break). -/
def paidP (p : FlexPattern) : Int := p.L

/-- Source: `costP[p] = wage[i] * INTERVAL_HOURS * paidP[p]` with
`INTERVAL_HOURS = 0.5`. -/
def costP (data : Data) (p : FlexPattern) : Rat :=
  data.wage p.i * (1 / 2 : Rat) * (paidP p : Rat)

/-- Source: `flexible_candidates.build_flexible_candidates`: the emitted pattern
list, in loop order (employees, then jobs, then days, then start times,
then lengths), with the two rejection tests of the source. -/
def build_flexible_candidates (data : Data) (allowed_lengths : List Int)
    (start_window : Option (Int × Int)) : List FlexPattern :=
  let start_times :=
    match start_window with
    | none => data.intervals
    | some (lo, hi) => data.intervals.filter (fun t => lo ≤ t ∧ t ≤ hi)
  data.employees.flatMap fun i =>
    if i ∈ data.PT then
      data.jobs.flatMap fun k =>
        if data.skills (i, k) = 1 then
          data.days.flatMap fun d =>
            start_times.flatMap fun s =>
              allowed_lengths.filterMap fun L =>
                if (∀ t ∈ rangeInts s L, t ∈ data.intervals) ∧
                   (∀ t ∈ rangeInts s L, (i, d, t) ∉ data.blocked)
                then some ⟨i, k, d, s, L⟩ else none
        else []
    else []

/-! ### `model.build_model` -/

/-- A point of the model's variable space: values for the fixed-assignment
variables `x` (indexed by candidate triples), the pattern-usage variables
`y` (indexed by pattern position in the emitted list), and the two slack
families (indexed by (job, day, interval)). -/
structure Point where
  x : String × String × Int → Rat
  y : Nat → Rat
  slack_pref : String × Int × Int → Rat
  slack_min : String × Int × Int → Rat

/-- The coverage aggregation `assigned_kdt` of `build_model`: fixed
candidates of job `k` on day `d` weighted by `covers[j,t]`, plus patterns
of job `k` and day `d` weighted by `covP[p,t]`. -/
def assigned (data : Data) (Y : List FlexPattern) (pt : Point)
    (k : String) (d t : Int) : Rat :=
  ((data.X.filter fun c => c.2.2 = d ∧ data.jobs_of c.2.1 = k).map
      fun c => data.covers c.2.1 t * pt.x c).sum
  + ((Y.enum.filter fun ip => ip.2.k = k ∧ ip.2.d = d).map
      fun ip => covP ip.2 t * pt.y ip.1).sum

/-- Identity of one constraint of the built model (which Pyomo constraint
family it belongs to and at which index it was generated). -/
inductive Constr where
  | skillC (i j : String) (d : Int)
  | onePerDay (i : String) (d : Int)
  | prefC (k : String) (d t : Int)
  | minC (k : String) (d t : Int)
deriving DecidableEq, Repr

/-- The `(i, d)` index set of `m.OneShiftPerDay`: Python builds
`sorted({(i,d) for (i,_,d) in X} | {(P_i[p],P_d[p]) for p in Y})`; only
membership in the set matters for which constraints exist, so the sort is
dropped and a `dedup` of the union is kept. -/
def id_pairs (data : Data) (Y : List FlexPattern) : List (String × Int) :=
  ((data.X.map fun c => (c.1, c.2.2)) ++ (Y.map fun p => (p.i, p.d))).dedup

/-- All constraints generated by `build_model`: `m.SkillOK` over `m.X`
(the skip branch never fires since the rule is indexed by `m.X` itself),
`m.OneShiftPerDay` over `m.ID`, and `m.Preferred` / `m.Minimum` over
`m.K × m.D × m.T`. -/
def build_constraints (data : Data) (Y : List FlexPattern) : List Constr :=
  (data.X.map fun c => Constr.skillC c.1 c.2.1 c.2.2)
  ++ (id_pairs data Y).map (fun p => Constr.onePerDay p.1 p.2)
  ++ (data.jobs.flatMap fun k => data.days.flatMap fun d =>
        data.intervals.map fun t => Constr.prefC k d t)
  ++ (data.jobs.flatMap fun k => data.days.flatMap fun d =>
        data.intervals.map fun t => Constr.minC k d t)

/-- The inequality a generated constraint states about a point. -/
def constrHolds (data : Data) (Y : List FlexPattern) (pt : Point) : Constr → Prop
  | .skillC i j d => pt.x (i, j, d) ≤ data.skills (i, data.jobs_of j)
  | .onePerDay i d =>
      ((data.X.filter fun c => c.1 = i ∧ c.2.2 = d).map fun c => pt.x c).sum
      + ((Y.enum.filter fun ip => ip.2.i = i ∧ ip.2.d = d).map
           fun ip => pt.y ip.1).sum ≤ 1
  | .prefC k d t => assigned data Y pt k d t + pt.slack_pref (k, d, t) ≥ data.prefReq k d t
  | .minC k d t => assigned data Y pt k d t + pt.slack_min (k, d, t) ≥ data.minReq k d t

instance (data : Data) (Y : List FlexPattern) (pt : Point) :
    DecidablePred (constrHolds data Y pt) := fun c =>
  match c with
  | .skillC _ _ _ => inferInstanceAs (Decidable (_ ≤ _))
  | .onePerDay _ _ => inferInstanceAs (Decidable (_ ≤ _))
  | .prefC _ _ _ => inferInstanceAs (Decidable (_ ≥ _))
  | .minC _ _ _ => inferInstanceAs (Decidable (_ ≥ _))

/-- The variable domains declared by `build_model`: `m.x` and `m.y` are
`Binary`, the two slack families are `NonNegativeReals` (declared over
`m.K × m.D × m.T`). -/
def VarDomainsOK (data : Data) (Y : List FlexPattern) (pt : Point) : Prop :=
  (∀ c ∈ data.X, pt.x c = 0 ∨ pt.x c = 1) ∧
  (∀ ip ∈ Y.enum, pt.y ip.1 = 0 ∨ pt.y ip.1 = 1) ∧
  (∀ k ∈ data.jobs, ∀ d ∈ data.days, ∀ t ∈ data.intervals,
     0 ≤ pt.slack_pref (k, d, t) ∧ 0 ≤ pt.slack_min (k, d, t))

/-- Feasibility for the built model: variable domains plus every generated
constraint. -/
def Feasible (data : Data) (Y : List FlexPattern) (pt : Point) : Prop :=
  VarDomainsOK data Y pt ∧ ∀ c ∈ build_constraints data Y, constrHolds data Y pt c

instance (data : Data) (Y : List FlexPattern) (pt : Point) :
    Decidable (Feasible data Y pt) := by
  unfold Feasible VarDomainsOK
  infer_instance

/-- The (job, day, interval) enumeration `m.K × m.D × m.T` used by the
slack sums of the objective. -/
def tripleList (data : Data) : List (String × Int × Int) :=
  data.jobs.flatMap fun k => data.days.flatMap fun d =>
    data.intervals.map fun t => (k, d, t)

/-- Source: `obj_rule` of `build_model`:
`INTERVAL_HOURS * Σ cost[i]*(Lj[j]-Bj[j])*x[i,j,d] + Σ costP[p]*y[p]
 + pen_pref * Σ slack_pref + pen_min * Σ slack_min`. -/
def objective (data : Data) (Y : List FlexPattern) (pt : Point) : Rat :=
  (1 / 2 : Rat) *
      ((data.X.map fun c =>
          data.wage c.1 * ((data.Lj c.2.1 : Rat) - (data.unpaid c.2.1 : Rat)) * pt.x c).sum)
  + (Y.enum.map fun ip => costP data ip.2 * pt.y ip.1).sum
  + data.pen_pref * ((tripleList data).map fun kdt => pt.slack_pref kdt).sum
  + data.pen_min * ((tripleList data).map fun kdt => pt.slack_min kdt).sum

/-- Optimization sense of the built objective. -/
inductive Sense where
  | minimize
  | maximize
deriving DecidableEq, Repr

/-- Source: `m.obj = Objective(rule=obj_rule, sense=minimize)`. -/
def obj_sense : Sense := Sense.minimize

/-- The set of objective values attained by feasible points of the built
model; its least element (when one exists) is the optimal objective
value. -/
def objSet (data : Data) (Y : List FlexPattern) : Set Rat :=
  {v | ∃ pt, Feasible data Y pt ∧ objective data Y pt = v}

/-! ### `solve.sanity_check` and the `main` pipeline -/

/-- Source: `solve.sanity_check`: an `error` models the `ValueError` raised for an
empty domain; an `ok` carries the list of printed (non-fatal) warnings.
The required-keys check inspects dict keys, which the typed `Data`
structure always carries, so that branch never fires. -/
def sanity_check (data : Data) : Except String (List String) :=
  if data.employees = [] then .error "No employees loaded"
  else if data.jobs = [] then .error "No jobs loaded"
  else if data.days = [] then .error "No days loaded"
  else if data.intervals = [] then .error "No intervals loaded"
  else if data.shifts = [] then .error "No shifts loaded"
  else if data.covers_keys = [] then .error "covers (shift coverage) is empty"
  else if data.availability_keys = [] then
    .ok ["WARNING: availability dict is empty; using default=0 in model"]
  else .ok []

/-- Construction-time validation performed by `build_model`: Pyomo checks
each `Param(..., within=D)` value against `D`, and each initialization key
of an indexed `Param` against its index sets, while the component is
constructed; the first failing component raises `ValueError`.  Checks
appear here in the component order of `model.py`: `cost`
(NonNegativeReals), `Lj` and `Bj` (NonNegativeIntegers), `job_of`
(`within=m.K`), `skill` (key validity over `m.I × m.K`), then the flex
params `P_s`, `P_L`, `paidP` (NonNegativeIntegers) and `costP`
(NonNegativeReals).  Components whose loader-produced values and keys are
valid by construction — `covers` and `avail` (keys drawn from the loaded
domains, values the Binary constant 1), `covP` (the generator rejects
patterns leaving the interval domain), `prefReq`/`minReq` and
`pen_pref`/`pen_min` (no `within` restriction) — are omitted.  Error text
is abbreviated; only which inputs abort matters. -/
def build_model_checks (data : Data) (Y : List FlexPattern) : Except String Unit :=
  if ¬ (∀ i ∈ data.employees, 0 ≤ data.wage i) then
    .error "Param cost: value not in domain NonNegativeReals"
  else if ¬ (∀ j ∈ data.shifts, 0 ≤ data.Lj j) then
    .error "Param Lj: value not in domain NonNegativeIntegers"
  else if ¬ (∀ j ∈ data.shifts, 0 ≤ data.unpaid j) then
    .error "Param Bj: value not in domain NonNegativeIntegers"
  else if ¬ (∀ j ∈ data.shifts, data.jobs_of j ∈ data.jobs) then
    .error "Param job_of: value not in domain K"
  else if ¬ (∀ ik ∈ data.skills_keys, ik.1 ∈ data.employees ∧ ik.2 ∈ data.jobs) then
    .error "Param skill: index not valid for I x K"
  else if ¬ (∀ p ∈ Y, 0 ≤ p.s) then
    .error "Param P_s: value not in domain NonNegativeIntegers"
  else if ¬ (∀ p ∈ Y, 0 ≤ p.L) then
    .error "Param P_L: value not in domain NonNegativeIntegers"
  else if ¬ (∀ p ∈ Y, 0 ≤ paidP p) then
    .error "Param paidP: value not in domain NonNegativeIntegers"
  else if ¬ (∀ p ∈ Y, 0 ≤ costP data p) then
    .error "Param costP: value not in domain NonNegativeReals"
  else .ok ()

/-- What `main` has produced once `build_model` returns: the printed
warnings, the generated pattern catalog, and the built constraint list
(the objective is the function `objective data Y`). -/
structure PipelineOutput where
  warnings : List String
  Y : List FlexPattern
  constraints : List Constr
deriving DecidableEq, Repr

/-- Steps 1–4 of `solve.main`: `load_data`, then
`build_flexible_candidates(data, allowed_lengths=(6, 8, 10),
start_window=None)`, then `sanity_check`, then `build_model` (whose
Pyomo `Param` construction can itself raise, `build_model_checks`).  An
uncaught exception in any step aborts the run. -/
def run_pipeline (inp : Input) : Except String PipelineOutput := do
  let data ← load_data inp
  let flexY := build_flexible_candidates data [6, 8, 10] none
  let warns ← sanity_check data
  build_model_checks data flexY
  pure { warnings := warns
         Y := flexY
         constraints := build_constraints data flexY }

/-! ### Auxiliary notions used only in theorem statements -/

/-- The day column of the `shifts.csv` rows declaring shift `j` — "the day
declared for shift `j`".  (`load_data` reads this column only into the
global day set; it keeps no per-shift day.) -/
def declared_days (inp : Input) (j : String) : List Int :=
  (inp.shifts.filter (·.shift_id = j)).map (·.day)

/-- A copy of `data` with the minimum requirement of the single cell
`(k0, d0, t0)` raised by `δ`, everything else unchanged. -/
def bumpMin (data : Data) (k0 : String) (d0 t0 : Int) (δ : Rat) : Data :=
  { data with minReq := fun k d t =>
      if k = k0 ∧ d = d0 ∧ t = t0 then data.minReq k d t + δ else data.minReq k d t }

/-! ### Concrete datasets for counterexamples and witnesses -/

/-- Two employees (one FT, one PT20), both skilled in job "A"; two fixed
shifts of job "A", declared on days 1 and 2, both covering `[10, 12)`;
no blocked time; one demand row. -/
def exMini : Input :=
  { employees := [⟨"e1", 10, "FT"⟩, ⟨"e2", 8, "PT20"⟩]
    skills := [⟨"e1", "A"⟩, ⟨"e2", "A"⟩]
    shifts := [⟨"j1", 1, "A", 10, 2, 0⟩, ⟨"j2", 2, "A", 10, 2, 0⟩]
    unavail := []
    demand := [⟨1, 10, "A", 1, 1⟩] }

/-- One employee, fully blocked on day 1, and a zero-length shift `j0`
(empty coverage set).  The demand row keeps the interval domain
nonempty. -/
def exZeroLen : Input :=
  { employees := [⟨"e1", 10, "FT"⟩]
    skills := [⟨"e1", "A"⟩]
    shifts := [⟨"j0", 1, "A", 0, 0, 0⟩]
    unavail := [⟨"e1", 1, 0, 24⟩]
    demand := [⟨1, 0, "A", 0, 0⟩] }

/-- An employees file with zero rows (shifts present). -/
def exNoEmployees : Input :=
  { employees := []
    skills := [⟨"e1", "A"⟩]
    shifts := [⟨"j1", 1, "A", 0, 1, 0⟩]
    unavail := []
    demand := [] }

/-- One employee whose single blocked hour removes every availability
entry: the filtered availability dict is empty but all the fatal
`sanity_check` domains are populated. -/
def exAllBlocked : Input :=
  { employees := [⟨"e1", 10, "FT"⟩]
    skills := [⟨"e1", "A"⟩]
    shifts := [⟨"j1", 1, "A", 0, 1, 0⟩]
    unavail := [⟨"e1", 1, 0, 1⟩]
    demand := [] }

/-- A dataset whose only demand row references job "B", which no skill row
declares (the job domain is `["A"]`). -/
def exBadDemand : Input :=
  { employees := [⟨"e1", 10, "FT"⟩]
    skills := [⟨"e1", "A"⟩]
    shifts := [⟨"j1", 1, "A", 0, 1, 0⟩]
    unavail := []
    demand := [⟨1, 0, "B", 5, 5⟩] }

/-- A degenerate `data` dict for exercising the model builder directly:
no employees, shifts, candidates or patterns; one job, one day, one
interval; the hard-coded penalties of `load_data`. -/
def exDataC9 : Data :=
  { employees := []
    wage := fun _ => 0
    emp_type := fun _ => ""
    skills := fun _ => 0
    jobs := ["A"]
    shifts := []
    jobs_of := fun _ => ""
    days := [1]
    start_j := fun _ => 0
    Lj := fun _ => 0
    unpaid := fun _ => 0
    covers := fun _ _ => 0
    intervals := [0]
    prefReq := fun _ _ _ => 0
    minReq := fun _ _ _ => 0
    blocked := []
    availability := fun _ _ _ => 0
    FT := []
    PT := []
    pen_min := 10000000
    pen_pref := 10
    X := []
    skills_keys := []
    covers_keys := []
    availability_keys := [] }

/-- The all-zero point of the variable space. -/
def ptZero : Point :=
  { x := fun _ => 0, y := fun _ => 0, slack_pref := fun _ => 0, slack_min := fun _ => 0 }

/-- The point with `slack_min ≡ 1` and all other variables 0. -/
def ptMinOne : Point :=
  { x := fun _ => 0, y := fun _ => 0, slack_pref := fun _ => 0, slack_min := fun _ => 1 }

/-! ## Lemmas -/

theorem rangeInts_mem (s len t : Int) :
    t ∈ rangeInts s len ↔ s ≤ t ∧ t < s + len := by
  simp only [rangeInts, List.mem_map, List.mem_range]
  constructor
  · rintro ⟨o, ho, rfl⟩
    omega
  · rintro ⟨h1, h2⟩
    exact ⟨(t - s).toNat, by omega, by omega⟩

theorem mem_insertSorted {α : Type} (le : α → α → Bool) (a b : α) (l : List α) :
    a ∈ insertSorted le b l ↔ a = b ∨ a ∈ l := by
  induction l with
  | nil => simp [insertSorted]
  | cons c l ih =>
    by_cases h : le b c = true
    · simp [insertSorted, h]
    · simp only [insertSorted, h, Bool.false_eq_true, if_false, List.mem_cons, ih]
      tauto

theorem mem_sortedList {α : Type} (le : α → α → Bool) (a : α) (l : List α) :
    a ∈ sortedList le l ↔ a ∈ l := by
  induction l with
  | nil => simp [sortedList]
  | cons b l ih =>
    simp only [sortedList, List.foldr_cons, mem_insertSorted, List.mem_cons]
    simp only [sortedList] at ih
    rw [ih]

theorem list_sum_mul_left {α : Type} (r : Rat) (l : List α) (f : α → Rat) :
    r * (l.map f).sum = (l.map fun a => r * f a).sum := by
  induction l with
  | nil => simp
  | cons a l ih => simp only [List.map_cons, List.sum_cons, mul_add, ih]

theorem ite_one_eq_one_iff {P : Prop} [Decidable P] :
    (if P then (1 : Rat) else 0) = 1 ↔ P := by
  split <;> simp_all

theorem skillsOf_eq_one_iff (inp : Input) (i k : String) :
    skillsOf inp (i, k) = 1 ↔ ∃ r ∈ inp.skills, r.employee_id = i ∧ r.job = k := by
  unfold skillsOf
  rw [ite_one_eq_one_iff, List.any_eq_true]
  simp

theorem skillsOf_ne_zero_iff (inp : Input) (ik : String × String) :
    ¬ skillsOf inp ik = 0 ↔ skillsOf inp ik = 1 := by
  unfold skillsOf
  split <;> norm_num

theorem mem_coverTsOf (rows : List ShiftRow) (j : String) (t : Int) :
    t ∈ coverTsOf rows j ↔
      ∃ r ∈ rows, r.shift_id = j ∧ t ∈ rangeInts r.start_t r.length := by
  unfold coverTsOf
  rw [List.mem_flatMap]
  constructor
  · rintro ⟨r, hr, hmem⟩
    by_cases h : r.shift_id = j
    · rw [if_pos h] at hmem
      exact ⟨r, hr, h, hmem⟩
    · rw [if_neg h] at hmem
      cases hmem
  · rintro ⟨r, hr, hid, hmem⟩
    exact ⟨r, hr, by rw [if_pos hid]; exact hmem⟩

theorem coversOf_eq_one_iff (inp : Input) (j : String) (t : Int) :
    coversOf inp j t = 1 ↔ t ∈ coverTsOf inp.shifts j := by
  unfold coversOf
  rw [ite_one_eq_one_iff, List.any_eq_true, mem_coverTsOf]
  simp

theorem availabilityOf_eq_one_iff (inp : Input) (i j : String) (d : Int) :
    availabilityOf inp i j d = 1 ↔
      i ∈ employeesOf inp ∧ j ∈ inp.shifts.map (·.shift_id) ∧ d ∈ daysOf inp ∧
      ∀ t ∈ coverTsOf inp.shifts j, (i, d, t) ∉ blockedOf inp := by
  unfold availabilityOf derive_shift_availability_from_grid
  exact ite_one_eq_one_iff

theorem mem_XOf (inp : Input) (i j : String) (d : Int) :
    (i, j, d) ∈ XOf inp ↔
      i ∈ employeesOf inp ∧ j ∈ inp.shifts.map (·.shift_id) ∧ d ∈ daysOf inp ∧
      skillsOf inp (i, jobs_ofOf inp j) = 1 ∧ availabilityOf inp i j d = 1 := by
  unfold XOf
  rw [List.mem_flatMap]
  constructor
  · rintro ⟨i', hi', hrest⟩
    rcases List.mem_flatMap.mp hrest with ⟨j', hj', hrest2⟩
    by_cases hskill : skillsOf inp (i', jobs_ofOf inp j') = 0
    · rw [if_pos hskill] at hrest2
      cases hrest2
    · rw [if_neg hskill] at hrest2
      rcases List.mem_filterMap.mp hrest2 with ⟨d', hd', heq⟩
      by_cases hav : availabilityOf inp i' j' d' = 1
      · rw [if_pos hav] at heq
        rcases Option.some.inj heq with heq2
        obtain ⟨rfl, rfl, rfl⟩ :
            i' = i ∧ j' = j ∧ d' = d := by
          simpa [Prod.ext_iff] using heq2
        exact ⟨hi', hj', hd', (skillsOf_ne_zero_iff inp _).mp hskill, hav⟩
      · rw [if_neg hav] at heq
        cases heq
  · rintro ⟨hi, hj, hd, hskill, hav⟩
    refine ⟨i, hi, List.mem_flatMap.mpr ⟨j, hj, ?_⟩⟩
    rw [if_neg (by rw [hskill]; norm_num)]
    exact List.mem_filterMap.mpr ⟨d, hd, by rw [if_pos hav]⟩

/-! ## Claims -/

/-- C1, counterexample: the candidate set is NOT restricted to the day
declared for the shift.  In `exMini`, shift "j1" is declared on day 1
(its only `shifts.csv` row has day 1), employee "e1" is skilled and never
blocked, yet `(e1, j1, 2)` is a generated candidate: `load_data` discards
the per-shift day and loops over the whole day domain. -/
theorem spec_C1_counterexample :
    ("e1", "j1", (2 : Int)) ∈ (load_core exMini).X ∧
    declared_days exMini "j1" = [1] := by
  constructor
  · decide
  · decide

/-- C1, amended: for a loaded employee `i` and shift `j`, the candidate
set `X` contains `(i, j, d)` iff `d` is ANY day of the loaded day domain
(not necessarily the day declared for `j`), `i` holds the skill for
`job(j)`, and no interval covered by `j` is blocked for `(i, d)`. -/
theorem spec_C1_amended (inp : Input) (i j : String) (d : Int)
    (hi : i ∈ (load_core inp).employees) (hj : j ∈ (load_core inp).shifts) :
    (i, j, d) ∈ (load_core inp).X ↔
      d ∈ (load_core inp).days ∧
      (load_core inp).skills (i, (load_core inp).jobs_of j) = 1 ∧
      ∀ t : Int, (load_core inp).covers j t = 1 →
        (i, d, t) ∉ (load_core inp).blocked := by
  show (i, j, d) ∈ XOf inp ↔
      d ∈ daysOf inp ∧ skillsOf inp (i, jobs_ofOf inp j) = 1 ∧
      ∀ t : Int, coversOf inp j t = 1 → (i, d, t) ∉ blockedOf inp
  rw [mem_XOf, availabilityOf_eq_one_iff]
  have hi' : i ∈ employeesOf inp := hi
  have hj' : j ∈ inp.shifts.map (·.shift_id) := hj
  constructor
  · rintro ⟨-, -, hd, hskill, -, -, -, hblk⟩
    refine ⟨hd, hskill, fun t hcov => hblk t ?_⟩
    exact (coversOf_eq_one_iff inp j t).mp hcov
  · rintro ⟨hd, hskill, hblk⟩
    exact ⟨hi', hj', hd, hskill, hi', hj', hd,
      fun t ht => hblk t ((coversOf_eq_one_iff inp j t).mpr ht)⟩

/-- C1, witness for the amended theorem at `exMini`: `(e1, j1, 1)`. -/
theorem spec_C1_witness :
    ("e1", "j1", (1 : Int)) ∈ (load_core exMini).X ↔
      (1 : Int) ∈ (load_core exMini).days ∧
      (load_core exMini).skills ("e1", (load_core exMini).jobs_of "j1") = 1 ∧
      ∀ t : Int, (load_core exMini).covers "j1" t = 1 →
        ("e1", (1 : Int), t) ∉ (load_core exMini).blocked :=
  spec_C1_amended exMini "e1" "j1" 1 (by decide) (by decide)

/-- C10: a loaded shift with an empty coverage set is marked available for
every employee and day without consulting the blocked set, so every
employee holding its job skill yields a fixed candidate on every loaded
day — whatever the blocked set contains. -/
theorem spec_C10 (inp : Input) (i j : String) (d : Int)
    (hi : i ∈ (load_core inp).employees) (hj : j ∈ (load_core inp).shifts)
    (hd : d ∈ (load_core inp).days)
    (hcov : ∀ t : Int, (load_core inp).covers j t = 0)
    (hskill : (load_core inp).skills (i, (load_core inp).jobs_of j) = 1) :
    (load_core inp).availability i j d = 1 ∧ (i, j, d) ∈ (load_core inp).X := by
  have hav : availabilityOf inp i j d = 1 := by
    rw [availabilityOf_eq_one_iff]
    refine ⟨hi, hj, hd, fun t ht _ => ?_⟩
    have h1 : coversOf inp j t = 1 := (coversOf_eq_one_iff inp j t).mpr ht
    have h0 : coversOf inp j t = 0 := hcov t
    rw [h0] at h1
    norm_num at h1
  exact ⟨hav, (mem_XOf inp i j d).mpr ⟨hi, hj, hd, hskill, hav⟩⟩

/-- C10, witness at `exZeroLen`: shift "j0" has length 0 (empty coverage);
employee "e1" is blocked for the whole day (`(e1, 1, 0)` is in the blocked
set and the interval domain is `[0]`), yet `(e1, j0, 1)` is available and
a generated candidate. -/
theorem spec_C10_witness :
    ((load_core exZeroLen).availability "e1" "j0" 1 = 1 ∧
      ("e1", "j0", (1 : Int)) ∈ (load_core exZeroLen).X) ∧
    ("e1", (1 : Int), (0 : Int)) ∈ (load_core exZeroLen).blocked :=
  ⟨spec_C10 exZeroLen "e1" "j0" 1 (by decide) (by decide) (by decide)
      (fun t => by
        show coversOf exZeroLen "j0" t = 0
        simp [coversOf, exZeroLen, rangeInts])
      (by decide),
    by decide⟩

theorem mem_flexCandidates (data : Data) (allowed : List Int)
    (w : Option (Int × Int)) (p : FlexPattern) :
    p ∈ build_flexible_candidates data allowed w ↔
      p.i ∈ data.employees ∧ p.i ∈ data.PT ∧ p.k ∈ data.jobs ∧
      data.skills (p.i, p.k) = 1 ∧ p.d ∈ data.days ∧
      (p.s ∈ match w with
        | none => data.intervals
        | some (lo, hi) => data.intervals.filter (fun t => lo ≤ t ∧ t ≤ hi)) ∧
      p.L ∈ allowed ∧
      (∀ t ∈ rangeInts p.s p.L, t ∈ data.intervals) ∧
      (∀ t ∈ rangeInts p.s p.L, (p.i, p.d, t) ∉ data.blocked) := by
  unfold build_flexible_candidates
  rw [List.mem_flatMap]
  constructor
  · rintro ⟨i, hi, hrest⟩
    by_cases hpt : i ∈ data.PT
    · rw [if_pos hpt] at hrest
      rcases List.mem_flatMap.mp hrest with ⟨k, hk, hrest2⟩
      by_cases hsk : data.skills (i, k) = 1
      · rw [if_pos hsk] at hrest2
        rcases List.mem_flatMap.mp hrest2 with ⟨d, hd, hrest3⟩
        rcases List.mem_flatMap.mp hrest3 with ⟨s, hs, hrest4⟩
        rcases List.mem_filterMap.mp hrest4 with ⟨L, hL, heq⟩
        by_cases hcond : (∀ t ∈ rangeInts s L, t ∈ data.intervals) ∧
            (∀ t ∈ rangeInts s L, (i, d, t) ∉ data.blocked)
        · rw [if_pos hcond] at heq
          cases Option.some.inj heq
          exact ⟨hi, hpt, hk, hsk, hd, hs, hL, hcond.1, hcond.2⟩
        · rw [if_neg hcond] at heq
          cases heq
      · rw [if_neg hsk] at hrest2
        cases hrest2
    · rw [if_neg hpt] at hrest
      cases hrest
  · rintro ⟨hi, hpt, hk, hsk, hd, hs, hL, hdom, hblk⟩
    refine ⟨p.i, hi, ?_⟩
    rw [if_pos hpt]
    refine List.mem_flatMap.mpr ⟨p.k, hk, ?_⟩
    rw [if_pos hsk]
    refine List.mem_flatMap.mpr ⟨p.d, hd, List.mem_flatMap.mpr ⟨p.s, hs, ?_⟩⟩
    exact List.mem_filterMap.mpr ⟨p.L, hL, by rw [if_pos ⟨hdom, hblk⟩]⟩

/-- C3: `build_flexible_candidates` emits a pattern exactly for the tuples
`(i, k, d, s, L)` with `i` a part-time-eligible employee skilled in `k`,
`d` a loaded day, `s` an interval of the start window (the whole interval
domain when no window is given), `L` an allowed length, all of `[s, s+L)`
inside the interval domain and none of it blocked for `(i, d)`; and every
pattern carries paid intervals `L`, cost `wage(i) · 0.5 · L` and coverage
markers exactly on `[s, s+L)`. -/
theorem spec_C3 (data : Data) (allowed : List Int) (w : Option (Int × Int))
    (p : FlexPattern) :
    (p ∈ build_flexible_candidates data allowed w ↔
      p.i ∈ data.employees ∧ p.i ∈ data.PT ∧ p.k ∈ data.jobs ∧
      data.skills (p.i, p.k) = 1 ∧ p.d ∈ data.days ∧
      (p.s ∈ data.intervals ∧ ∀ lo hi, w = some (lo, hi) → lo ≤ p.s ∧ p.s ≤ hi) ∧
      p.L ∈ allowed ∧
      (∀ t ∈ rangeInts p.s p.L, t ∈ data.intervals) ∧
      (∀ t ∈ rangeInts p.s p.L, (p.i, p.d, t) ∉ data.blocked)) ∧
    paidP p = p.L ∧
    costP data p = data.wage p.i * (1 / 2 : Rat) * (p.L : Rat) ∧
    (∀ t : Int, covP p t = 1 ↔ p.s ≤ t ∧ t < p.s + p.L) := by
  refine ⟨?_, rfl, rfl, fun t => ?_⟩
  · rw [mem_flexCandidates]
    have hw : (p.s ∈ match w with
        | none => data.intervals
        | some (lo, hi) => data.intervals.filter (fun t => lo ≤ t ∧ t ≤ hi)) ↔
        p.s ∈ data.intervals ∧ ∀ lo hi, w = some (lo, hi) → lo ≤ p.s ∧ p.s ≤ hi := by
      cases w with
      | none => simp
      | some lohi =>
        obtain ⟨lo, hi⟩ := lohi
        simp only [List.mem_filter, decide_eq_true_eq, Option.some.injEq, Prod.mk.injEq]
        constructor
        · rintro ⟨h1, h2, h3⟩
          exact ⟨h1, fun lo' hi' ⟨hlo, hhi⟩ => by subst hlo; subst hhi; exact ⟨h2, h3⟩⟩
        · rintro ⟨h1, h2⟩
          rcases h2 lo hi ⟨rfl, rfl⟩ with ⟨h3, h4⟩
          exact ⟨h1, h3, h4⟩
    rw [hw]
  · unfold covP
    rw [ite_one_eq_one_iff, rangeInts_mem]

/-- C6: both generators use the half-open coverage convention.  A fixed
shift whose only `shifts.csv` row has start `s` and length `L` gets
coverage markers exactly on `[s, s+L)`, and every flexible pattern gets
coverage markers exactly on `[s, s+L)` of its own start and length. -/
theorem spec_C6 (inp : Input) (j : String) (r : ShiftRow)
    (hmem : r ∈ inp.shifts) (hid : r.shift_id = j)
    (huniq : ∀ r' ∈ inp.shifts, r'.shift_id = j → r' = r) :
    (∀ t : Int, (load_core inp).covers j t = 1 ↔
      r.start_t ≤ t ∧ t < r.start_t + r.length) ∧
    (∀ p : FlexPattern, ∀ t : Int, covP p t = 1 ↔ p.s ≤ t ∧ t < p.s + p.L) := by
  constructor
  · intro t
    show coversOf inp j t = 1 ↔ _
    rw [coversOf_eq_one_iff, mem_coverTsOf]
    constructor
    · rintro ⟨r', hr', hid', hrange⟩
      rw [huniq r' hr' hid'] at hrange
      exact (rangeInts_mem _ _ _).mp hrange
    · intro hbounds
      exact ⟨r, hmem, hid, (rangeInts_mem _ _ _).mpr hbounds⟩
  · intro p t
    unfold covP
    rw [ite_one_eq_one_iff, rangeInts_mem]

/-- C6, witness at `exMini`: shift "j1" (start 10, length 2) covers
exactly `[10, 12)`. -/
theorem spec_C6_witness :
    (∀ t : Int, (load_core exMini).covers "j1" t = 1 ↔
      (10 : Int) ≤ t ∧ t < 10 + 2) ∧
    (∀ p : FlexPattern, ∀ t : Int, covP p t = 1 ↔ p.s ≤ t ∧ t < p.s + p.L) :=
  spec_C6 exMini "j1" ⟨"j1", 1, "A", 10, 2, 0⟩ (by decide) (by decide) (by decide)

/-- C2: for every job, day and interval of the model domains, the built
constraint set contains the preferred-staffing and minimum-staffing
inequalities, and any feasible point satisfies
`assigned + slack ≥ requirement` for both, with both slacks
non-negative. -/
theorem spec_C2 (data : Data) (Y : List FlexPattern) (k : String) (d t : Int)
    (hk : k ∈ data.jobs) (hd : d ∈ data.days) (ht : t ∈ data.intervals) :
    Constr.prefC k d t ∈ build_constraints data Y ∧
    Constr.minC k d t ∈ build_constraints data Y ∧
    ∀ pt : Point, Feasible data Y pt →
      assigned data Y pt k d t + pt.slack_pref (k, d, t) ≥ data.prefReq k d t ∧
      assigned data Y pt k d t + pt.slack_min (k, d, t) ≥ data.minReq k d t ∧
      0 ≤ pt.slack_pref (k, d, t) ∧ 0 ≤ pt.slack_min (k, d, t) := by
  have hin : Constr.prefC k d t ∈
      data.jobs.flatMap fun k => data.days.flatMap fun d =>
        data.intervals.map fun t => Constr.prefC k d t :=
    List.mem_flatMap.mpr ⟨k, hk, List.mem_flatMap.mpr ⟨d, hd,
      List.mem_map.mpr ⟨t, ht, rfl⟩⟩⟩
  have hin' : Constr.minC k d t ∈
      data.jobs.flatMap fun k => data.days.flatMap fun d =>
        data.intervals.map fun t => Constr.minC k d t :=
    List.mem_flatMap.mpr ⟨k, hk, List.mem_flatMap.mpr ⟨d, hd,
      List.mem_map.mpr ⟨t, ht, rfl⟩⟩⟩
  have hpref : Constr.prefC k d t ∈ build_constraints data Y := by
    unfold build_constraints
    exact List.mem_append_left _ (List.mem_append_right _ hin)
  have hmin : Constr.minC k d t ∈ build_constraints data Y := by
    unfold build_constraints
    exact List.mem_append_right _ hin'
  refine ⟨hpref, hmin, fun pt hfeas => ?_⟩
  exact ⟨hfeas.2 _ hpref, hfeas.2 _ hmin,
    (hfeas.1.2.2 k hk d hd t ht).1, (hfeas.1.2.2 k hk d hd t ht).2⟩

/-- C2, witness at `exMini` (no patterns), cell ("A", 1, 10). -/
theorem spec_C2_witness :
    Constr.prefC "A" 1 10 ∈ build_constraints (load_core exMini) [] ∧
    Constr.minC "A" 1 10 ∈ build_constraints (load_core exMini) [] ∧
    ∀ pt : Point, Feasible (load_core exMini) [] pt →
      assigned (load_core exMini) [] pt "A" 1 10 + pt.slack_pref ("A", 1, 10) ≥
        (load_core exMini).prefReq "A" 1 10 ∧
      assigned (load_core exMini) [] pt "A" 1 10 + pt.slack_min ("A", 1, 10) ≥
        (load_core exMini).minReq "A" 1 10 ∧
      0 ≤ pt.slack_pref ("A", 1, 10) ∧ 0 ≤ pt.slack_min ("A", 1, 10) :=
  spec_C2 (load_core exMini) [] "A" 1 10 (by decide) (by decide) (by decide)

/-- C4: the objective is minimized and equals the candidate wage sum with
per-candidate coefficient `wage(i) · 0.5 · (length − unpaid)`, plus the
pattern cost sum, plus `penaltyMin` times the total minimum slack, plus
`penaltyPref` times the total preferred slack. -/
theorem spec_C4 (data : Data) (Y : List FlexPattern) (pt : Point) :
    obj_sense = Sense.minimize ∧
    objective data Y pt =
      (data.X.map fun c =>
        data.wage c.1 * (1 / 2 : Rat) *
          ((data.Lj c.2.1 : Rat) - (data.unpaid c.2.1 : Rat)) * pt.x c).sum
      + (Y.enum.map fun ip => costP data ip.2 * pt.y ip.1).sum
      + data.pen_min * ((tripleList data).map fun kdt => pt.slack_min kdt).sum
      + data.pen_pref * ((tripleList data).map fun kdt => pt.slack_pref kdt).sum := by
  refine ⟨rfl, ?_⟩
  unfold objective
  have h : (fun c : String × String × Int =>
        data.wage c.1 * (1 / 2 : Rat) *
          ((data.Lj c.2.1 : Rat) - (data.unpaid c.2.1 : Rat)) * pt.x c)
      = fun c => (1 / 2 : Rat) *
          (data.wage c.1 * ((data.Lj c.2.1 : Rat) - (data.unpaid c.2.1 : Rat)) * pt.x c) :=
    funext fun c => by ring
  rw [h, ← list_sum_mul_left]
  ring

/-- C5: a one-shift-per-day constraint exists exactly for the (employee,
day) pairs occurring in some fixed candidate or some pattern, and where it
exists, feasibility bounds the employee's fixed-candidate variables plus
pattern variables on that day by 1. -/
theorem spec_C5 (data : Data) (Y : List FlexPattern) (i : String) (d : Int) :
    (Constr.onePerDay i d ∈ build_constraints data Y ↔
      (∃ j, (i, j, d) ∈ data.X) ∨ (∃ p ∈ Y, p.i = i ∧ p.d = d)) ∧
    ∀ pt : Point, Feasible data Y pt →
      Constr.onePerDay i d ∈ build_constraints data Y →
      ((data.X.filter fun c => c.1 = i ∧ c.2.2 = d).map fun c => pt.x c).sum
      + ((Y.enum.filter fun ip => ip.2.i = i ∧ ip.2.d = d).map
          fun ip => pt.y ip.1).sum ≤ 1 := by
  have h1 : Constr.onePerDay i d ∈ build_constraints data Y ↔
      (i, d) ∈ id_pairs data Y := by
    unfold build_constraints
    constructor
    · intro h
      rcases List.mem_append.mp h with h | h
      · rcases List.mem_append.mp h with h | h
        · rcases List.mem_append.mp h with h | h
          · rcases List.mem_map.mp h with ⟨c, _, heq⟩
            simp at heq
          · rcases List.mem_map.mp h with ⟨⟨i', d'⟩, hid, heq⟩
            injection heq with e1 e2
            subst e1; subst e2
            exact hid
        · rcases List.mem_flatMap.mp h with ⟨k, _, h2⟩
          rcases List.mem_flatMap.mp h2 with ⟨d', _, h3⟩
          rcases List.mem_map.mp h3 with ⟨t, _, heq⟩
          simp at heq
      · rcases List.mem_flatMap.mp h with ⟨k, _, h2⟩
        rcases List.mem_flatMap.mp h2 with ⟨d', _, h3⟩
        rcases List.mem_map.mp h3 with ⟨t, _, heq⟩
        simp at heq
    · intro h
      exact List.mem_append_left _ (List.mem_append_left _
        (List.mem_append_right _ (List.mem_map.mpr ⟨(i, d), h, rfl⟩)))
  have h2 : (i, d) ∈ id_pairs data Y ↔
      (∃ j, (i, j, d) ∈ data.X) ∨ (∃ p ∈ Y, p.i = i ∧ p.d = d) := by
    unfold id_pairs
    rw [List.mem_dedup, List.mem_append]
    constructor
    · rintro (h | h)
      · rcases List.mem_map.mp h with ⟨c, hc, heq⟩
        obtain ⟨e1, e2⟩ : c.1 = i ∧ c.2.2 = d := by
          simpa [Prod.ext_iff] using heq
        refine Or.inl ⟨c.2.1, ?_⟩
        have : (c.1, c.2.1, c.2.2) = c := rfl
        rw [e1, e2] at this
        rw [this]
        exact hc
      · rcases List.mem_map.mp h with ⟨p, hp, heq⟩
        obtain ⟨e1, e2⟩ : p.i = i ∧ p.d = d := by
          simpa [Prod.ext_iff] using heq
        exact Or.inr ⟨p, hp, e1, e2⟩
    · rintro (⟨j, hj⟩ | ⟨p, hp, e1, e2⟩)
      · exact Or.inl (List.mem_map.mpr ⟨(i, j, d), hj, rfl⟩)
      · exact Or.inr (List.mem_map.mpr ⟨p, hp, by rw [e1, e2]⟩)
  refine ⟨h1.trans h2, fun pt hfeas hmem => ?_⟩
  exact hfeas.2 _ hmem

theorem jobsOf_ne_nil (inp : Input) (hsk : inp.skills ≠ []) : jobsOf inp ≠ [] := by
  rcases List.exists_mem_of_ne_nil _ hsk with ⟨r, hr⟩
  apply List.ne_nil_of_mem (a := r.job)
  unfold jobsOf
  rw [mem_sortedList, List.mem_dedup]
  exact List.mem_map_of_mem _ hr

theorem daysOf_ne_nil (inp : Input) (hsh : inp.shifts ≠ []) : daysOf inp ≠ [] := by
  rcases List.exists_mem_of_ne_nil _ hsh with ⟨r, hr⟩
  apply List.ne_nil_of_mem (a := r.day)
  unfold daysOf
  rw [mem_sortedList, List.mem_dedup]
  exact List.mem_map_of_mem _ hr

theorem intervalsOf_ne_nil (inp : Input)
    (hcov : (load_core inp).covers_keys ≠ []) : intervalsOf inp ≠ [] := by
  rcases List.exists_mem_of_ne_nil _ hcov with ⟨⟨j, t⟩, hjt⟩
  have hjt' : (j, t) ∈ inp.shifts.flatMap
      (fun r => (rangeInts r.start_t r.length).map (fun t => (r.shift_id, t))) := hjt
  rcases List.mem_flatMap.mp hjt' with ⟨r, hr, hmem⟩
  rcases List.mem_map.mp hmem with ⟨t', ht', heq⟩
  apply List.ne_nil_of_mem (a := t)
  unfold intervalsOf
  rw [mem_sortedList, List.mem_dedup, List.mem_append]
  left
  refine List.mem_flatMap.mpr ⟨r, hr, ?_⟩
  cases heq
  exact ht'

/-- C7, counterexample: a dataset with zero employees does not reach a
model at all — `load_data` itself raises (Python `max()` over the empty
wage dict), so the empty domain is fatal, not a non-fatal diagnostic. -/
theorem spec_C7_counterexample :
    run_pipeline exNoEmployees = .error "max() arg is an empty sequence" := by
  rfl

/-- C7, amended: only an empty availability dict (after filtering) is
surfaced as a non-fatal diagnostic — a printed warning — with the pipeline
still building a model, and only provided `build_model`'s Pyomo `Param`
construction-time validation passes (shift jobs inside the declared job
domain, skill keys inside the loaded domains, non-negative wages, lengths,
breaks and pattern values); zero employees or zero shifts aborts inside
`load_data`, and `sanity_check` raises a fatal `ValueError` for empty
employees, jobs, days, intervals, shifts, or coverage. -/
theorem spec_C7_amended (inp : Input)
    (hemp : inp.employees ≠ []) (hsk : inp.skills ≠ []) (hsh : inp.shifts ≠ [])
    (hcov : (load_core inp).covers_keys ≠ [])
    (hav : (load_core inp).availability_keys = [])
    (hbm : build_model_checks (load_core inp)
      (build_flexible_candidates (load_core inp) [6, 8, 10] none) = .ok ()) :
    run_pipeline inp =
      .ok { warnings := ["WARNING: availability dict is empty; using default=0 in model"]
            Y := build_flexible_candidates (load_core inp) [6, 8, 10] none
            constraints := build_constraints (load_core inp)
              (build_flexible_candidates (load_core inp) [6, 8, 10] none) } := by
  have h1 : (load_core inp).employees ≠ [] := by
    intro hc
    exact hemp (List.map_eq_nil_iff.mp hc)
  have h2 : (load_core inp).jobs ≠ [] := jobsOf_ne_nil inp hsk
  have h3 : (load_core inp).days ≠ [] := daysOf_ne_nil inp hsh
  have h4 : (load_core inp).intervals ≠ [] := intervalsOf_ne_nil inp hcov
  have h5 : (load_core inp).shifts ≠ [] := by
    intro hc
    exact hsh (List.map_eq_nil_iff.mp hc)
  have hld : load_data inp = .ok (load_core inp) := by
    unfold load_data
    rw [if_neg hemp, if_neg hsh]
  have hsan : sanity_check (load_core inp) =
      .ok ["WARNING: availability dict is empty; using default=0 in model"] := by
    unfold sanity_check
    rw [if_neg h1, if_neg h2, if_neg h3, if_neg h4, if_neg h5, if_neg hcov, if_pos hav]
  unfold run_pipeline
  rw [hld]
  show (sanity_check (load_core inp) >>= fun warns =>
      build_model_checks (load_core inp)
          (build_flexible_candidates (load_core inp) [6, 8, 10] none) >>= fun _ =>
      pure { warnings := warns
             Y := build_flexible_candidates (load_core inp) [6, 8, 10] none
             constraints := build_constraints (load_core inp)
               (build_flexible_candidates (load_core inp) [6, 8, 10] none) }
      : Except String PipelineOutput) = _
  rw [hsan]
  show (build_model_checks (load_core inp)
          (build_flexible_candidates (load_core inp) [6, 8, 10] none) >>= fun _ =>
      pure { warnings := ["WARNING: availability dict is empty; using default=0 in model"]
             Y := build_flexible_candidates (load_core inp) [6, 8, 10] none
             constraints := build_constraints (load_core inp)
               (build_flexible_candidates (load_core inp) [6, 8, 10] none) }
      : Except String PipelineOutput) = _
  rw [hbm]
  rfl

/-- C7, witness: `exAllBlocked` (one employee fully blocked on the only
covered slot) yields an empty availability dict, the warning, and a built
model — its shift job is declared and all Param values are in domain. -/
theorem spec_C7_witness :
    run_pipeline exAllBlocked =
      .ok { warnings := ["WARNING: availability dict is empty; using default=0 in model"]
            Y := build_flexible_candidates (load_core exAllBlocked) [6, 8, 10] none
            constraints := build_constraints (load_core exAllBlocked)
              (build_flexible_candidates (load_core exAllBlocked) [6, 8, 10] none) } :=
  spec_C7_amended exAllBlocked (by decide) (by decide) (by decide) (by decide) (by decide)
    (by rfl)

/-- C8, counterexample: `exBadDemand` has a demand row for job "B", which
is outside the declared job domain (`["A"]` from `skills.csv`), yet
`load_data` succeeds and the row's values never reach the model
parameters — the row is silently dropped, no fatal error is raised. -/
theorem spec_C8_counterexample :
    load_data exBadDemand = .ok (load_core exBadDemand) ∧
    "B" ∉ (load_core exBadDemand).jobs ∧
    exBadDemand.demand = [⟨1, 0, "B", 5, 5⟩] ∧
    (load_core exBadDemand).prefReq "B" 1 0 = 0 ∧
    (load_core exBadDemand).minReq "B" 1 0 = 0 :=
  ⟨rfl, by decide, rfl, by decide, by decide⟩

/-- C8, amended: entity-store construction performs no referential
integrity validation.  A demand row whose job is outside the
skills-derived job domain is silently dropped — the model's demand
parameters read 0 for that job everywhere — and with nonempty employee
and shift files `load_data` always succeeds. -/
theorem spec_C8_amended (inp : Input) (k : String)
    (hk : k ∉ (load_core inp).jobs) :
    (∀ d t : Int, (load_core inp).prefReq k d t = 0 ∧
      (load_core inp).minReq k d t = 0) ∧
    (inp.employees ≠ [] → inp.shifts ≠ [] → load_data inp = .ok (load_core inp)) := by
  constructor
  · intro d t
    constructor
    · show prefReqOf inp k d t = 0
      unfold prefReqOf
      rw [if_neg]
      intro hc
      exact hk hc.1
    · show minReqOf inp k d t = 0
      unfold minReqOf
      rw [if_neg]
      intro hc
      exact hk hc.1
  · intro hemp hsh
    unfold load_data
    rw [if_neg hemp, if_neg hsh]

/-- C8, witness for the amended theorem at `exBadDemand` with job "B". -/
theorem spec_C8_witness :
    ((load_core exBadDemand).prefReq "B" 1 0 = 0 ∧
      (load_core exBadDemand).minReq "B" 1 0 = 0) ∧
    load_data exBadDemand = .ok (load_core exBadDemand) :=
  ⟨(spec_C8_amended exBadDemand "B" (by decide)).1 1 0,
    (spec_C8_amended exBadDemand "B" (by decide)).2 (by decide) (by decide)⟩

/-- C9: raising the minimum requirement of one (job, day, interval) cell
never decreases the optimal objective value: every point feasible for the
raised model is feasible for the original one with the same objective, so
the original optimum is a lower bound for the raised optimum. -/
theorem spec_C9 (data : Data) (Y : List FlexPattern) (k0 : String) (d0 t0 : Int)
    (δ : Rat) (hδ : 0 ≤ δ) (v v' : Rat)
    (h : IsLeast (objSet data Y) v)
    (h' : IsLeast (objSet (bumpMin data k0 d0 t0 δ) Y) v') :
    v ≤ v' := by
  apply h.2
  rcases h'.1 with ⟨pt, hfeas, hobj⟩
  refine ⟨pt, ⟨hfeas.1, ?_⟩, hobj⟩
  intro c hc
  have hc' : c ∈ build_constraints (bumpMin data k0 d0 t0 δ) Y := hc
  have h1 := hfeas.2 c hc'
  cases c with
  | skillC i j d => exact h1
  | onePerDay i d => exact h1
  | prefC k d t => exact h1
  | minC k d t =>
    show assigned data Y pt k d t + pt.slack_min (k, d, t) ≥ data.minReq k d t
    have h2 : assigned data Y pt k d t + pt.slack_min (k, d, t) ≥
        (bumpMin data k0 d0 t0 δ).minReq k d t := h1
    have h3 : data.minReq k d t ≤ (bumpMin data k0 d0 t0 δ).minReq k d t := by
      show data.minReq k d t ≤
        (if k = k0 ∧ d = d0 ∧ t = t0 then data.minReq k d t + δ else data.minReq k d t)
      split
      · linarith
      · exact le_refl _
    linarith

theorem tripleList_exDataC9 : tripleList exDataC9 = [("A", 1, 0)] := by decide

theorem build_constraints_exDataC9 :
    build_constraints exDataC9 [] = [Constr.prefC "A" 1 0, Constr.minC "A" 1 0] := by
  decide

theorem objective_exDataC9 (pt : Point) :
    objective exDataC9 [] pt =
      10 * pt.slack_pref ("A", 1, 0) + 10000000 * pt.slack_min ("A", 1, 0) := by
  unfold objective
  rw [tripleList_exDataC9]
  show (1 / 2 : Rat) * (([] : List (String × String × Int)).map _).sum + _ + _ + _ = _
  simp [exDataC9]

theorem assigned_exDataC9 (data : Data) (pt : Point) (hX : data.X = [])
    (k : String) (d t : Int) : assigned data [] pt k d t = 0 := by
  unfold assigned
  rw [hX]
  simp

theorem objSet_exDataC9_isLeast : IsLeast (objSet exDataC9 []) 0 := by
  constructor
  · refine ⟨ptZero, ⟨⟨?_, ?_, ?_⟩, ?_⟩, ?_⟩
    · intro c hc
      cases hc
    · intro ip hip
      cases hip
    · intro k _ d _ t _
      exact ⟨le_refl 0, le_refl 0⟩
    · intro c hc
      rw [build_constraints_exDataC9] at hc
      have hval : ∀ k : String, ∀ d t : Int,
          assigned exDataC9 [] ptZero k d t + (0 : Rat) ≥ 0 := by
        intro k d t
        rw [assigned_exDataC9 exDataC9 ptZero rfl]
        norm_num
      rcases List.mem_cons.mp hc with rfl | hc
      · exact hval "A" 1 0
      rcases List.mem_cons.mp hc with rfl | hc
      · exact hval "A" 1 0
      cases hc
    · rw [objective_exDataC9]
      show 10 * (0 : Rat) + 10000000 * 0 = 0
      norm_num
  · rintro v ⟨pt, hfeas, rfl⟩
    have hdom := hfeas.1.2.2 "A" (by decide) 1 (by decide) 0 (by decide)
    rw [objective_exDataC9]
    linarith [hdom.1, hdom.2]

theorem tripleList_exDataC9_bump :
    tripleList (bumpMin exDataC9 "A" 1 0 1) = [("A", 1, 0)] := by decide

theorem build_constraints_exDataC9_bump :
    build_constraints (bumpMin exDataC9 "A" 1 0 1) [] =
      [Constr.prefC "A" 1 0, Constr.minC "A" 1 0] := by
  decide

theorem bump_minReq_exDataC9 :
    (bumpMin exDataC9 "A" 1 0 1).minReq "A" 1 0 = 1 := by
  show (if ("A" : String) = "A" ∧ (1 : Int) = 1 ∧ (0 : Int) = 0
    then exDataC9.minReq "A" 1 0 + 1 else exDataC9.minReq "A" 1 0) = 1
  rw [if_pos ⟨rfl, rfl, rfl⟩]
  show (0 : Rat) + 1 = 1
  norm_num

theorem objective_exDataC9_bump (pt : Point) :
    objective (bumpMin exDataC9 "A" 1 0 1) [] pt =
      10 * pt.slack_pref ("A", 1, 0) + 10000000 * pt.slack_min ("A", 1, 0) := by
  unfold objective
  rw [tripleList_exDataC9_bump]
  show (1 / 2 : Rat) * (([] : List (String × String × Int)).map _).sum + _ + _ + _ = _
  simp [bumpMin, exDataC9]

theorem objSet_exDataC9_bump_isLeast :
    IsLeast (objSet (bumpMin exDataC9 "A" 1 0 1) []) 10000000 := by
  constructor
  · refine ⟨ptMinOne, ⟨⟨?_, ?_, ?_⟩, ?_⟩, ?_⟩
    · intro c hc
      cases hc
    · intro ip hip
      cases hip
    · intro k _ d _ t _
      exact ⟨le_refl 0, show (0 : Rat) ≤ 1 by norm_num⟩
    · intro c hc
      rw [build_constraints_exDataC9_bump] at hc
      rcases List.mem_cons.mp hc with rfl | hc
      · show assigned (bumpMin exDataC9 "A" 1 0 1) [] ptMinOne "A" 1 0 + (0 : Rat) ≥
          (bumpMin exDataC9 "A" 1 0 1).prefReq "A" 1 0
        rw [assigned_exDataC9 _ _ rfl]
        show (0 : Rat) + 0 ≥ (0 : Rat)
        norm_num
      rcases List.mem_cons.mp hc with rfl | hc
      · show assigned (bumpMin exDataC9 "A" 1 0 1) [] ptMinOne "A" 1 0 + (1 : Rat) ≥
          (bumpMin exDataC9 "A" 1 0 1).minReq "A" 1 0
        rw [assigned_exDataC9 _ _ rfl, bump_minReq_exDataC9]
        norm_num
      cases hc
    · rw [objective_exDataC9_bump]
      show 10 * (0 : Rat) + 10000000 * 1 = 10000000
      norm_num
  · rintro v ⟨pt, hfeas, rfl⟩
    have hdom := hfeas.1.2.2 "A" (by decide) 1 (by decide) 0 (by decide)
    have hminmem : Constr.minC "A" 1 0 ∈
        build_constraints (bumpMin exDataC9 "A" 1 0 1) [] := by
      rw [build_constraints_exDataC9_bump]
      exact List.mem_cons.mpr (Or.inr (List.mem_cons.mpr (Or.inl rfl)))
    have hmin : assigned (bumpMin exDataC9 "A" 1 0 1) [] pt "A" 1 0
        + pt.slack_min ("A", 1, 0) ≥ (bumpMin exDataC9 "A" 1 0 1).minReq "A" 1 0 :=
      hfeas.2 _ hminmem
    rw [assigned_exDataC9 _ _ rfl, bump_minReq_exDataC9] at hmin
    rw [objective_exDataC9_bump]
    linarith [hdom.1, hmin]

/-- C9, witness: the degenerate model `exDataC9` has optimal value 0; with
the single cell ("A", 1, 0) minimum raised by 1 the optimal value is
10000000 (the minimum-slack penalty), and the theorem yields 0 ≤ 10000000. -/
theorem spec_C9_witness : (0 : Rat) ≤ 10000000 :=
  spec_C9 exDataC9 [] "A" 1 0 1 (by norm_num) 0 10000000
    objSet_exDataC9_isLeast objSet_exDataC9_bump_isLeast

end Sched
